import Mathlib

/-!
Verification of the sai-tg bot's pagination, session-state and
formatting logic, shallowly embedded from `src/bot/main.py` and
`src/bot/graphql.py`.

Conventions of the embedding:
* Python `dict.get(k)` / `dict.get(k, d)` over optional record fields is
  modelled with `Option` and `Option.getD`.
* Python truthiness tests (`if x:`) are modelled by explicit truthiness
  helpers (`None`, `0`, `""`, `[]`, `{}` are falsy).
* Operations that raise in Python when applied to `None` (arithmetic,
  numeric comparison, numeric format specifiers) are modelled in the
  `Except PyErr` monad, so "never raises" is a provable statement.
* Numeric record values are exact (`Int` micro-units, `Rat`); the text
  produced for a number abstracts Python's float rendering (rounding
  mode, thousands separators), which no verified property depends on.
-/

/-- Python-level runtime errors that the embedded code can raise. -/
inductive PyErr where
  | typeError
  | valueError
  deriving DecidableEq

/-- ASCII upper-casing of one character, as Python's `str.upper` acts on
the ASCII symbols this bot handles. -/
def pyCharUp (c : Char) : Char :=
  if 'a' ≤ c ∧ c ≤ 'z' then Char.ofNat (c.toNat - 32) else c

/-- ASCII lower-casing of one character (Python `str.lower`). -/
def pyCharDown (c : Char) : Char :=
  if 'A' ≤ c ∧ c ≤ 'Z' then Char.ofNat (c.toNat + 32) else c

/-- Python `s.upper()` for the ASCII strings handled by the bot. -/
def pyUpper (s : String) : String := String.mk (s.toList.map pyCharUp)

/-- Python `s.lower()` for the ASCII strings handled by the bot. -/
def pyLower (s : String) : String := String.mk (s.toList.map pyCharDown)

/-- Python `a or b` where `a` is an optional string and `""` is falsy. -/
def pyStrOr (a : Option String) (b : String) : String :=
  match a with
  | none => b
  | some s => if s = "" then b else s

/-- Python truthiness of an optional integer (`None` and `0` are falsy). -/
def pyTruthyInt (a : Option Int) : Bool :=
  match a with
  | none => false
  | some v => if v = 0 then false else true

/-- Python truthiness of an optional string (`None` and `""` are falsy). -/
def pyTruthyStr (a : Option String) : Bool :=
  match a with
  | none => false
  | some s => if s = "" then false else true

/-- Display of a possibly-absent number, as Python f-string interpolation
prints `None` for an absent value. -/
def optReprNat (a : Option Nat) : String :=
  match a with
  | none => "None"
  | some n => toString n

/-- Display of a possibly-absent integer (f-string interpolation). -/
def optReprInt (a : Option Int) : String :=
  match a with
  | none => "None"
  | some n => toString n

/-- Display of a possibly-absent rational (f-string interpolation of a
numeric field; abstracts Python's float `repr`). -/
def optReprRat (a : Option Rat) : String :=
  match a with
  | none => "None"
  | some q => toString q

/-- Decimal rendering of a rational with `d` digits after the point.
Abstracts Python's `f"{x:.df}"` / `f"{x:,.2f}"` (rounding mode and
thousands separators are not modelled; nothing proved depends on them). -/
def fmtRatDec (q : Rat) (d : Nat) : String :=
  let neg := q < 0
  let scaled := (Rat.floor (|q| * ((10 : Rat) ^ d))).toNat
  let ip := scaled / 10 ^ d
  let fp := scaled % 10 ^ d
  let fpDigits := toString fp
  let pad := String.mk (List.replicate (d - fpDigits.length) '0')
  (if neg then "-" else "") ++ toString ip ++ "." ++ pad ++ fpDigits

/-- Token reference as selected by the GraphQL queries:
`token { id name symbol }`. -/
structure Token where
  id : Option Nat
  name : Option String
  symbol : Option String
  deriving DecidableEq

def Token.empty : Token := ⟨none, none, none⟩

/-- Block reference: `{ block block_ts }`. -/
structure Block where
  block : Option Int
  block_ts : Option String
  deriving DecidableEq

def Block.empty : Block := ⟨none, none⟩

/-- Computed state block of a trade:
`state { positionValue liquidationPrice pnlCollateral pnlPct }`. -/
structure TradeState where
  positionValue : Option Int
  liquidationPrice : Option Int
  pnlCollateral : Option Int
  pnlPct : Option Rat
  deriving DecidableEq

def TradeState.empty : TradeState := ⟨none, none, none, none⟩

/-- Market reference of a trade:
`perpBorrowing { marketId baseToken quoteToken }`. -/
structure Market where
  marketId : Option Nat
  baseToken : Option Token
  quoteToken : Option Token
  deriving DecidableEq

def Market.empty : Market := ⟨none, none, none⟩

/-- Trade record, with the fields selected by `fetch_trades`.  Every
field read defensively in the source (`.get`) is optional here. -/
structure Trade where
  id : Option String
  isOpen : Option Bool
  isLong : Option Bool
  leverage : Option Rat
  openPrice : Option Rat
  closePrice : Option Rat
  openCollateralAmount : Option Int
  collateralAmount : Option Int
  openBlock : Option Block
  closeBlock : Option Block
  state : Option TradeState
  perpBorrowing : Option Market
  deriving DecidableEq

/-- Price record, with the fields selected by `fetch_prices`. -/
structure Price where
  priceUsd : Option Rat
  token : Option Token
  lastUpdatedBlock : Option Block
  deriving DecidableEq

/-- Python index clamping for a slice bound `i` over a list of length
`n`: a negative bound counts from the end and clamps at `0`, a
non-negative bound clamps at `n`. -/
def pyIdx (n : Nat) (i : Int) : Nat :=
  if i < 0 then ((n : Int) + i).toNat else min i.toNat n

/-- Python list slicing `l[a:b]`. -/
def pySlice {α : Type} (l : List α) (a b : Int) : List α :=
  (l.drop (pyIdx l.length a)).take (pyIdx l.length b - pyIdx l.length a)

/-- The page computation shared by `send_trades_page`
(`main.py:232-235`) and `format_prices` (`main.py:149-151`):
`end_idx = min(start_idx + page_size, len(l))`,
`page = l[start_idx:end_idx]`, `has_more = end_idx < len(l)`. -/
def page_window {α : Type} (l : List α) (start size : Int) : List α × Bool :=
  (pySlice l start (min (start + size) (l.length : Int)),
    decide (min (start + size) (l.length : Int) < (l.length : Int)))

/-- Lemma: `pyIdx` at a non-negative bound. -/
theorem pyIdx_coe (n m : Nat) : pyIdx n ((m : Nat) : Int) = min m n := by
  unfold pyIdx
  rw [if_neg (by omega : ¬ ((m : Int) < 0)), Int.toNat_ofNat]

/-- Lemma: `page_window` at non-negative (`Nat`) arguments, in drop/take form. -/
theorem page_window_nat {α : Type} (l : List α) (start size : Nat) :
    page_window l (start : Int) (size : Int) =
      ((l.drop start).take (min (start + size) l.length - start),
        decide (start + size < l.length)) := by
  have hmin : min ((start : Int) + (size : Int)) ((l.length : Int))
      = ((min (start + size) l.length : Nat) : Int) := by
    push_cast
    rfl
  unfold page_window pySlice
  rw [hmin, pyIdx_coe, pyIdx_coe]
  rw [Prod.mk.injEq]
  constructor
  · rcases Nat.lt_or_ge l.length start with hlt | hge
    · have h1 : min start l.length = l.length := by omega
      have h2 : l.drop l.length = ([] : List α) :=
        List.drop_eq_nil_of_le (Nat.le_refl _)
      have h3 : l.drop start = ([] : List α) :=
        List.drop_eq_nil_of_le (Nat.le_of_lt hlt)
      rw [h1, h2, h3, List.take_nil, List.take_nil]
    · rw [Nat.min_eq_left hge]
      have h4 : min (min (start + size) l.length) l.length
          = min (start + size) l.length := by omega
      rw [h4]
  · simp only [decide_eq_decide]
    omega

/-- C1: for every list, non-negative page index and positive page size,
the page computation returns the slice
`[pageIndex*pageSize, min(pageIndex*pageSize + pageSize, totalCount))`,
of length `min(pageSize, max(0, totalCount - pageIndex*pageSize))`
(`Nat` subtraction is truncated), with `hasMore` true exactly when the
end ordinal is strictly below `totalCount`, and an empty page (no
error) when `pageIndex*pageSize ≥ totalCount`. -/
theorem c1_paginate_page_spec {α : Type} (l : List α)
    (pageIndex pageSize : Nat) (hs : 0 < pageSize) :
    (page_window l ((pageIndex : Int) * (pageSize : Int)) (pageSize : Int)).1.length
        = min pageSize (l.length - pageIndex * pageSize)
    ∧ (page_window l ((pageIndex : Int) * (pageSize : Int)) (pageSize : Int)).1
        = (l.drop (pageIndex * pageSize)).take
            (min (pageIndex * pageSize + pageSize) l.length - pageIndex * pageSize)
    ∧ ((page_window l ((pageIndex : Int) * (pageSize : Int)) (pageSize : Int)).2 = true
        ↔ min (pageIndex * pageSize + pageSize) l.length < l.length)
    ∧ (l.length ≤ pageIndex * pageSize →
        (page_window l ((pageIndex : Int) * (pageSize : Int)) (pageSize : Int)).1 = []) := by
  have hcast : ((pageIndex : Int) * (pageSize : Int))
      = ((pageIndex * pageSize : Nat) : Int) := by push_cast; ring
  rw [hcast, page_window_nat l (pageIndex * pageSize) pageSize]
  refine ⟨?_, rfl, ?_, ?_⟩
  · rw [List.length_take, List.length_drop]
    omega
  · simp only [decide_eq_true_eq]
    omega
  · intro hge
    have : min (pageIndex * pageSize + pageSize) l.length - pageIndex * pageSize = 0 := by
      omega
    rw [this, List.take_zero]

/-- The page-by-page iteration described by the spec: starting from page
index `k`, emit the page computed by the source's page computation and
continue with `k+1` while `has_more` is true.  (The guard `0 < s` makes
the recursion well founded; the spec's iteration is only defined for a
positive page size.) -/
def collect_pages {α : Type} (l : List α) (s : Nat) (k : Nat) : List α :=
  if h : 0 < s ∧ (page_window l ((k : Int) * (s : Int)) (s : Int)).2 = true then
    (page_window l ((k : Int) * (s : Int)) (s : Int)).1 ++ collect_pages l s (k + 1)
  else
    (page_window l ((k : Int) * (s : Int)) (s : Int)).1
termination_by l.length - k * s
decreasing_by
  obtain ⟨h1, h2⟩ := h
  have hc : ((k : Int) * (s : Int)) = ((k * s : Nat) : Int) := by push_cast; ring
  rw [hc, page_window_nat] at h2
  have h3 : k * s + s < l.length := of_decide_eq_true h2
  have h4 : (k + 1) * s = k * s + s := by ring
  omega

/-- Each tail of the page iteration yields exactly the corresponding
suffix of the list. -/
theorem collect_pages_eq_drop {α : Type} (l : List α) (s : Nat)
    (hs : 0 < s) (k : Nat) : collect_pages l s k = l.drop (k * s) := by
  induction k using collect_pages.induct l s with
  | case1 k h ih =>
    obtain ⟨h1, h2⟩ := h
    have hc : ((k : Int) * (s : Int)) = ((k * s : Nat) : Int) := by push_cast; ring
    rw [collect_pages, dif_pos ⟨h1, h2⟩, ih]
    rw [hc, page_window_nat] at h2 ⊢
    have h3 : k * s + s < l.length := of_decide_eq_true h2
    have h4 : min (k * s + s) l.length - k * s = s := by omega
    dsimp only
    rw [h4]
    have h6 : List.drop ((k + 1) * s) l = List.drop s (List.drop (k * s) l) := by
      rw [List.drop_drop]
      congr 1
      ring
    rw [h6, List.take_append_drop]
  | case2 k h =>
    have hc : ((k : Int) * (s : Int)) = ((k * s : Nat) : Int) := by push_cast; ring
    rw [collect_pages, dif_neg h, hc, page_window_nat]
    have h2 : ¬ (k * s + s < l.length) := by
      intro hlt
      exact h ⟨hs, by rw [hc, page_window_nat]; exact decide_eq_true hlt⟩
    have h4 : min (k * s + s) l.length - k * s = l.length - k * s := by omega
    rw [h4]
    exact List.take_of_length_le (by rw [List.length_drop])

/-- C4: for every list and positive page size, concatenating the pages
produced for page index 0, 1, 2, … until `has_more` is false
reconstructs the list exactly, in order. -/
theorem c4_concat_pages_reconstructs {α : Type} (l : List α) (s : Nat)
    (hs : 0 < s) : collect_pages l s 0 = l := by
  have h := collect_pages_eq_drop l s hs 0
  simpa using h

/-- Closed witness for `c4_concat_pages_reconstructs`. -/
theorem c4_concat_pages_reconstructs_witness :
    0 < 2 ∧ collect_pages [10, 20, 30, 40, 50] 2 0 = [10, 20, 30, 40, 50] :=
  ⟨by decide, c4_concat_pages_reconstructs [10, 20, 30, 40, 50] 2 (by decide)⟩

/-- Model of `POPULAR_TOKENS` from `main.py:132`: the symbols shown first. -/
def POPULAR_TOKENS : List String :=
  ["BTC", "ETH", "USDT", "USDC", "NIBI", "ATOM", "SOL", "BNB", "AVAX", "MATIC"]

/-- Model of `sort_key` from `format_prices` (`main.py:140-145`): popular symbols
get `(0, position in the popular list)`, everything else
`(1, token id, defaulting to 9999 when absent)`. -/
def sort_key (p : Price) : Nat × Nat :=
  let token := p.token.getD Token.empty
  let symbol := pyUpper (token.symbol.getD "")
  if POPULAR_TOKENS.contains symbol then
    (0, POPULAR_TOKENS.indexOf symbol)
  else
    (1, token.id.getD 9999)

/-- Strict lexicographic comparison of Python int pairs (`Bool`). -/
def keyLtB (x y : Nat × Nat) : Bool :=
  decide (x.1 < y.1 ∨ (x.1 = y.1 ∧ x.2 < y.2))

/-- Non-strict lexicographic order on Python int pairs (`Prop`). -/
def keyLe (x y : Nat × Nat) : Prop :=
  x.1 < y.1 ∨ (x.1 = y.1 ∧ x.2 ≤ y.2)

/-- Insert a record into an already-sorted list, after every record of
strictly smaller key and before the first record of greater-or-equal
key, so that earlier-fetched records stay first among equal keys. -/
def insert_by_key (p : Price) : List Price → List Price
  | [] => [p]
  | q :: qs =>
    if keyLtB (sort_key q) (sort_key p) then q :: insert_by_key p qs
    else p :: q :: qs

/-- Model of `sorted(prices, key=sort_key)` from `format_prices` (`main.py:147`):
Python's sort is stable, and any stable sort by the same key computes
the same list, so the stable insertion sort below is the model. -/
def sorted_prices : List Price → List Price
  | [] => []
  | p :: ps => insert_by_key p (sorted_prices ps)

theorem keyLtB_false_le {x y : Nat × Nat} (h : keyLtB x y = false) :
    keyLe y x := by
  obtain ⟨a, b⟩ := x
  obtain ⟨c, d⟩ := y
  have h2 := of_decide_eq_false h
  unfold keyLe
  simp only [not_or, not_and, not_lt] at h2
  omega

theorem keyLtB_true_le {x y : Nat × Nat} (h : keyLtB x y = true) :
    keyLe x y := by
  obtain ⟨a, b⟩ := x
  obtain ⟨c, d⟩ := y
  have h2 := of_decide_eq_true h
  unfold keyLe
  omega

theorem keyLe_trans {x y z : Nat × Nat} (h1 : keyLe x y) (h2 : keyLe y z) :
    keyLe x z := by
  obtain ⟨a, b⟩ := x
  obtain ⟨c, d⟩ := y
  obtain ⟨e, f⟩ := z
  unfold keyLe at h1 h2 ⊢
  omega

theorem insert_by_key_perm (p : Price) (l : List Price) :
    (insert_by_key p l).Perm (p :: l) := by
  induction l with
  | nil => exact List.Perm.refl _
  | cons q qs ih =>
    unfold insert_by_key
    by_cases h : keyLtB (sort_key q) (sort_key p) = true
    · rw [if_pos h]
      exact ((ih.cons q).trans (List.Perm.swap p q qs)).symm.symm
    · rw [if_neg h]

theorem sorted_prices_perm (l : List Price) : (sorted_prices l).Perm l := by
  induction l with
  | nil => exact List.Perm.refl _
  | cons p ps ih =>
    unfold sorted_prices
    exact (insert_by_key_perm p (sorted_prices ps)).trans (ih.cons p)

theorem insert_by_key_pairwise (p : Price) (l : List Price)
    (h : List.Pairwise (fun a b => keyLe (sort_key a) (sort_key b)) l) :
    List.Pairwise (fun a b => keyLe (sort_key a) (sort_key b))
      (insert_by_key p l) := by
  induction l with
  | nil => simp [insert_by_key]
  | cons q qs ih =>
    rw [List.pairwise_cons] at h
    obtain ⟨hq, hqs⟩ := h
    unfold insert_by_key
    by_cases hcmp : keyLtB (sort_key q) (sort_key p) = true
    · rw [if_pos hcmp]
      rw [List.pairwise_cons]
      refine ⟨?_, ih hqs⟩
      intro x hx
      have hx2 : x ∈ p :: qs := (insert_by_key_perm p qs).mem_iff.mp hx
      rcases List.mem_cons.mp hx2 with hxp | hxqs
      · rw [hxp]
        exact keyLtB_true_le hcmp
      · exact hq x hxqs
    · rw [if_neg hcmp]
      have hpq : keyLe (sort_key p) (sort_key q) :=
        keyLtB_false_le (Bool.eq_false_iff.mpr hcmp)
      rw [List.pairwise_cons]
      refine ⟨?_, List.pairwise_cons.mpr ⟨hq, hqs⟩⟩
      intro x hx
      rcases List.mem_cons.mp hx with hxq | hxqs
      · rw [hxq]
        exact hpq
      · exact keyLe_trans hpq (hq x hxqs)

theorem sorted_prices_pairwise (l : List Price) :
    List.Pairwise (fun a b => keyLe (sort_key a) (sort_key b))
      (sorted_prices l) := by
  induction l with
  | nil => simp [sorted_prices]
  | cons p ps ih =>
    unfold sorted_prices
    exact insert_by_key_pairwise p (sorted_prices ps) ih

/-- A record's symbol (upper-cased) is in the popular allow-list. -/
def popular (p : Price) : Bool :=
  POPULAR_TOKENS.contains (pyUpper (((p.token.getD Token.empty).symbol).getD ""))

/-- Position of a popular record's symbol in the allow-list. -/
def pop_idx (p : Price) : Nat :=
  POPULAR_TOKENS.indexOf (pyUpper (((p.token.getD Token.empty).symbol).getD ""))

/-- The id a non-popular record is ordered by: its token id, or the
fixed sentinel 9999 when the id is absent. -/
def eff_id (p : Price) : Nat :=
  (p.token.getD Token.empty).id.getD 9999

/-- Non-popular record with no token id (orders via the 9999 sentinel). -/
def pMissingId : Price := ⟨some 1, some ⟨none, none, some "AAA"⟩, none⟩

/-- Non-popular record whose real token id 10000 exceeds the sentinel. -/
def pBigId : Price := ⟨some 2, some ⟨some 10000, none, some "ZZZ"⟩, none⟩

/-- Popular record (symbol `btc`, case-insensitively in the list). -/
def pBTCrec : Price := ⟨some 3, some ⟨some 1, none, some "btc"⟩, none⟩

/-- C3 counterexample: the claim says a record with a missing id sorts
last, via a sentinel larger than any real id.  The sentinel is the
fixed value 9999, so a record with real id 10000 sorts *after* the
missing-id record: on `[pBigId, pMissingId]` the display order puts the
missing-id record first, not last. -/
theorem c3_missing_id_not_last_counterexample :
    sorted_prices [pBigId, pMissingId] = [pMissingId, pBigId]
    ∧ (pMissingId.token.getD Token.empty).id = none
    ∧ (pBigId.token.getD Token.empty).id = some 10000
    ∧ popular pMissingId = false
    ∧ popular pBigId = false := by
  refine ⟨?_, rfl, rfl, ?_, ?_⟩ <;> decide

/-- C3 (amended): the display ordering is a stable sort by `sort_key`:
it permutes the records, is sorted by the key order, and the key order
puts popular records (case-insensitive allow-list membership) strictly
first in allow-list order, and all other records after them ordered by
ascending token id where a *missing id is treated as the fixed sentinel
9999* (so it sorts after ids below 9999 and before ids above 9999, not
necessarily last). -/
theorem c3_sort_order_amended (prices : List Price) :
    (sorted_prices prices).Perm prices
    ∧ List.Pairwise (fun a b => keyLe (sort_key a) (sort_key b))
        (sorted_prices prices)
    ∧ (∀ a b : Price, popular a = true → popular b = false →
        keyLe (sort_key a) (sort_key b) ∧ ¬ keyLe (sort_key b) (sort_key a))
    ∧ (∀ a b : Price, popular a = true → popular b = true →
        (keyLe (sort_key a) (sort_key b) ↔ pop_idx a ≤ pop_idx b))
    ∧ (∀ a b : Price, popular a = false → popular b = false →
        (keyLe (sort_key a) (sort_key b) ↔ eff_id a ≤ eff_id b)) := by
  refine ⟨sorted_prices_perm prices, sorted_prices_pairwise prices, ?_, ?_, ?_⟩
  · intro a b ha hb
    unfold popular at ha hb
    have ha' : pyUpper ((a.token.getD Token.empty).symbol.getD "") ∈ POPULAR_TOKENS := by
      simpa using ha
    have hb' : ¬ pyUpper ((b.token.getD Token.empty).symbol.getD "") ∈ POPULAR_TOKENS := by
      simpa using hb
    simp [sort_key, keyLe, ha', hb']
  · intro a b ha hb
    unfold popular at ha hb
    have ha' : pyUpper ((a.token.getD Token.empty).symbol.getD "") ∈ POPULAR_TOKENS := by
      simpa using ha
    have hb' : pyUpper ((b.token.getD Token.empty).symbol.getD "") ∈ POPULAR_TOKENS := by
      simpa using hb
    simp [sort_key, keyLe, pop_idx, ha', hb']
  · intro a b ha hb
    unfold popular at ha hb
    have ha' : ¬ pyUpper ((a.token.getD Token.empty).symbol.getD "") ∈ POPULAR_TOKENS := by
      simpa using ha
    have hb' : ¬ pyUpper ((b.token.getD Token.empty).symbol.getD "") ∈ POPULAR_TOKENS := by
      simpa using hb
    simp [sort_key, keyLe, eff_id, ha', hb']

/-- Closed witness for `c3_sort_order_amended`, instantiating the
popular-before-non-popular fact at concrete records. -/
theorem c3_sort_order_amended_witness :
    (sorted_prices [pBigId, pBTCrec]).Perm [pBigId, pBTCrec]
    ∧ popular pBTCrec = true
    ∧ popular pMissingId = false
    ∧ (keyLe (sort_key pBTCrec) (sort_key pMissingId)
        ∧ ¬ keyLe (sort_key pMissingId) (sort_key pBTCrec)) := by
  refine ⟨(c3_sort_order_amended [pBigId, pBTCrec]).1, by decide, by decide, ?_⟩
  exact (c3_sort_order_amended [pBigId, pBTCrec]).2.2.1 pBTCrec pMissingId
    (by decide) (by decide)

/-- A trade's base-asset symbol as read defensively in
`SaiGQLClient.fetch_trades` (`graphql.py:74`):
`t.get("perpBorrowing", {}).get("baseToken", {}).get("symbol", "") or ""`. -/
def base_sym (t : Trade) : String :=
  (((t.perpBorrowing.getD Market.empty).baseToken.getD Token.empty).symbol).getD ""

/-- The client-side filtering step of `SaiGQLClient.fetch_trades`
(`graphql.py:66-77`): `fetched` is the list the GraphQL query returned;
`if base_symbol:` is Python truthiness, so `None` *and* the empty
string leave the list unfiltered; otherwise records are kept when the
upper-cased base symbol equals the upper-cased filter. -/
def fetch_trades (fetched : List Trade) (base_symbol : Option String) : List Trade :=
  match base_symbol with
  | none => fetched
  | some s =>
    if s = "" then fetched
    else fetched.filter (fun t => pyUpper (base_sym t) == pyUpper s)

/-- Open BTC trade record used in concrete examples. -/
def tBTC : Trade :=
  { id := some "1", isOpen := some true, isLong := some true,
    leverage := some 5, openPrice := some 100, closePrice := none,
    openCollateralAmount := some 1000000, collateralAmount := some 1000000,
    openBlock := none, closeBlock := none, state := none,
    perpBorrowing := some ⟨some 1, some ⟨some 1, some "Bitcoin", some "BTC"⟩,
      some ⟨some 2, some "Tether", some "USDT"⟩⟩ }

/-- Open ETH trade record used in concrete examples. -/
def tETH : Trade :=
  { id := some "2", isOpen := some true, isLong := some false,
    leverage := some 2, openPrice := some 2000, closePrice := none,
    openCollateralAmount := some 500000, collateralAmount := some 600000,
    openBlock := none, closeBlock := none, state := none,
    perpBorrowing := some ⟨some 3, some ⟨some 4, some "Ether", some "ETH"⟩,
      some ⟨some 2, some "Tether", some "USDT"⟩⟩ }

/-- Second BTC trade record (distinct id) used in concrete examples. -/
def tBTC2 : Trade :=
  { id := some "3", isOpen := some false, isLong := some true,
    leverage := some 10, openPrice := some 90, closePrice := some 95,
    openCollateralAmount := some 250000, collateralAmount := some 250000,
    openBlock := none, closeBlock := none, state := none,
    perpBorrowing := some ⟨some 1, some ⟨some 1, some "Bitcoin", some "BTC"⟩,
      some ⟨some 2, some "Tether", some "USDT"⟩⟩ }

/-- C6 counterexample: with the filter *present* but equal to the empty
string, the code skips filtering entirely (Python truthiness), so a
record whose base symbol does not match the filter is still kept —
"keeps exactly the records whose base symbol matches" fails at
`base_symbol = some ""`. -/
theorem c6_empty_filter_counterexample :
    fetch_trades [tBTC] (some "") = [tBTC]
    ∧ [tBTC].filter (fun t => pyUpper (base_sym t) == pyUpper "") = [] := by
  refine ⟨rfl, ?_⟩
  decide

/-- C6 (amended): for every trade fetch whose base-asset symbol filter
is present *and non-empty*, the filter is applied client-side after the
fetch as a case-insensitive equality match on the base-asset symbol: it
keeps exactly the matching records and preserves the fetched ordering
among the survivors (the result is a sublist of the fetched list). -/
theorem c6_base_filter_amended (fetched : List Trade) (s : String)
    (hs : s ≠ "") :
    fetch_trades fetched (some s)
        = fetched.filter (fun t => pyUpper (base_sym t) == pyUpper s)
    ∧ (fetch_trades fetched (some s)).Sublist fetched
    ∧ (∀ t : Trade, t ∈ fetch_trades fetched (some s) ↔
        (t ∈ fetched ∧ pyUpper (base_sym t) = pyUpper s)) := by
  have h1 : fetch_trades fetched (some s)
      = fetched.filter (fun t => pyUpper (base_sym t) == pyUpper s) := by
    simp only [fetch_trades]
    rw [if_neg hs]
  refine ⟨h1, ?_, ?_⟩
  · rw [h1]
    exact List.filter_sublist fetched
  · intro t
    rw [h1, List.mem_filter]
    simp

/-- Closed witness for `c6_base_filter_amended` on the spec's test
vector: base symbols `BTC, ETH, BTC` filtered by `btc`. -/
theorem c6_base_filter_amended_witness :
    ("btc" : String) ≠ ""
    ∧ (fetch_trades [tBTC, tETH, tBTC2] (some "btc")
        = [tBTC, tETH, tBTC2].filter (fun t => pyUpper (base_sym t) == pyUpper "btc")
    ∧ (fetch_trades [tBTC, tETH, tBTC2] (some "btc")).Sublist [tBTC, tETH, tBTC2]
    ∧ (∀ t : Trade, t ∈ fetch_trades [tBTC, tETH, tBTC2] (some "btc") ↔
        (t ∈ [tBTC, tETH, tBTC2] ∧ pyUpper (base_sym t) = pyUpper "btc"))) :=
  ⟨by decide, c6_base_filter_amended [tBTC, tETH, tBTC2] "btc" (by decide)⟩

/-- A price record's token symbol as read defensively in
`SaiGQLClient.fetch_price_by_symbol` (`graphql.py:98-101`). -/
def token_sym (p : Price) : String :=
  ((p.token.getD Token.empty).symbol).getD ""

/-- The linear scan of `SaiGQLClient.fetch_price_by_symbol`
(`graphql.py:94-102`): `prices` is the full list returned by
`fetch_prices(limit=200)`; the first record whose upper-cased token
symbol equals the upper-cased query is returned, else `None`. -/
def fetch_price_by_symbol (prices : List Price) (symbol : String) : Option Price :=
  match prices with
  | [] => none
  | p :: rest =>
    if pyUpper (token_sym p) == pyUpper symbol then some p
    else fetch_price_by_symbol rest symbol

theorem fetch_price_by_symbol_eq_find (prices : List Price) (symbol : String) :
    fetch_price_by_symbol prices symbol
      = prices.find? (fun p => pyUpper (token_sym p) == pyUpper symbol) := by
  induction prices with
  | nil => rfl
  | cons p rest ih =>
    unfold fetch_price_by_symbol
    rw [List.find?_cons]
    by_cases h : (pyUpper (token_sym p) == pyUpper symbol) = true
    · rw [if_pos h, h]
    · rw [if_neg h, Bool.eq_false_iff.mpr h, ih]

theorem fetch_price_by_symbol_first (symbol : String) :
    ∀ (pre : List Price) (p : Price) (post : List Price),
    (∀ q ∈ pre, pyUpper (token_sym q) ≠ pyUpper symbol) →
    pyUpper (token_sym p) = pyUpper symbol →
    fetch_price_by_symbol (pre ++ p :: post) symbol = some p := by
  intro pre
  induction pre with
  | nil =>
    intro p post _ hp
    rw [List.nil_append]
    simp only [fetch_price_by_symbol]
    rw [if_pos (by simpa using hp)]
  | cons q qs ih =>
    intro p post hpre hp
    rw [List.cons_append]
    simp only [fetch_price_by_symbol]
    have hq : ¬ ((pyUpper (token_sym q) == pyUpper symbol) = true) := by
      simpa using hpre q (List.mem_cons_self q qs)
    rw [if_neg hq]
    exact ih p post (fun r hr => hpre r (List.mem_cons_of_mem q hr)) hp

/-- C7: the single-price lookup scans the fetched full price list in
order and returns the first record whose token symbol matches the query
case-insensitively, and `none` exactly when no record matches. -/
theorem c7_price_lookup_first_match (prices : List Price) (symbol : String) :
    fetch_price_by_symbol prices symbol
        = prices.find? (fun p => pyUpper (token_sym p) == pyUpper symbol)
    ∧ (fetch_price_by_symbol prices symbol = none ↔
        ∀ p ∈ prices, pyUpper (token_sym p) ≠ pyUpper symbol)
    ∧ (∀ p : Price, fetch_price_by_symbol prices symbol = some p →
        p ∈ prices ∧ pyUpper (token_sym p) = pyUpper symbol)
    ∧ (∀ (pre : List Price) (p : Price) (post : List Price),
        prices = pre ++ p :: post →
        (∀ q ∈ pre, pyUpper (token_sym q) ≠ pyUpper symbol) →
        pyUpper (token_sym p) = pyUpper symbol →
        fetch_price_by_symbol prices symbol = some p) := by
  have h1 := fetch_price_by_symbol_eq_find prices symbol
  refine ⟨h1, ?_, ?_, ?_⟩
  · rw [h1, List.find?_eq_none]
    simp
  · intro p hp
    rw [h1] at hp
    refine ⟨List.mem_of_find?_eq_some hp, ?_⟩
    have h2 := List.find?_some hp
    simpa using h2
  · intro pre p post hsplit hpre hp
    subst hsplit
    exact fetch_price_by_symbol_first symbol pre p post hpre hp

/-- Closed witness for `c7_price_lookup_first_match`: the lookup for
`BTC` skips the non-matching head and returns the first match. -/
theorem c7_price_lookup_first_match_witness :
    fetch_price_by_symbol [pMissingId, pBTCrec] "BTC"
        = [pMissingId, pBTCrec].find? (fun p => pyUpper (token_sym p) == pyUpper "BTC")
    ∧ ((∀ q ∈ [pMissingId], pyUpper (token_sym q) ≠ pyUpper "BTC")
        ∧ pyUpper (token_sym pBTCrec) = pyUpper "BTC"
        ∧ fetch_price_by_symbol [pMissingId, pBTCrec] "BTC" = some pBTCrec) := by
  refine ⟨(c7_price_lookup_first_match [pMissingId, pBTCrec] "BTC").1,
    by decide, by decide, ?_⟩
  exact (c7_price_lookup_first_match [pMissingId, pBTCrec] "BTC").2.2.2
    [pMissingId] pBTCrec [] rfl (by decide) (by decide)

/-- Python division of a possibly-absent micro-unit amount by `10**6`:
raises `TypeError` when applied to `None`. -/
def pyDivMicro (x : Option Int) : Except PyErr Rat :=
  match x with
  | none => .error .typeError
  | some v => .ok ((v : Rat) / 1000000)

/-- Python `x >= c` on a possibly-absent number: raises on `None`. -/
def pyGeRat (x : Option Rat) (c : Rat) : Except PyErr Bool :=
  match x with
  | none => .error .typeError
  | some v => .ok (decide (c ≤ v))

/-- Python numeric format specifier (`f"{x:.df}"`) on a possibly-absent
number: raises on `None`. -/
def pyFmtRat (x : Option Rat) (d : Nat) : Except PyErr String :=
  match x with
  | none => .error .typeError
  | some v => .ok (fmtRatDec v d)

/-- Python truthiness of an optional number (`None` and `0` falsy). -/
def pyTruthyRat (a : Option Rat) : Bool :=
  match a with
  | none => false
  | some v => if v = 0 then false else true

/-- Model of `mkt.get("marketId", "?")` interpolated into an f-string. -/
def marketIdStr (a : Option Nat) : String :=
  match a with
  | none => "?"
  | some n => toString n

theorem exceptBind_isOk {ε α β : Type} {a : Except ε α} {f : α → Except ε β}
    (h1 : a.isOk = true) (h2 : ∀ x, (f x).isOk = true) :
    (a >>= f).isOk = true := by
  cases a with
  | error e => exact absurd h1 (by simp [Except.isOk, Except.toBool])
  | ok v => exact h2 v

@[simp]
theorem exceptIsOk_ok {ε α : Type} (a : α) :
    (Except.ok a : Except ε α).isOk = true := rfl

@[simp]
theorem exceptIsOk_pure {ε α : Type} (a : α) :
    (pure a : Except ε α).isOk = true := rfl

@[simp]
theorem exceptOk_bind {ε α β : Type} (a : α) (f : α → Except ε β) :
    ((Except.ok a : Except ε α) >>= f) = f a := rfl

/-- The separator line of the trade formatters. -/
def hrLine : String := "━━━━━━━━━━━━━━━━━━━━"

/-- Source `main.py:59-61`: the position-value line of an open trade. -/
def line_position_value (st : TradeState) : Except PyErr (List String) :=
  if st.positionValue.isSome then do
    let m ← pyDivMicro st.positionValue
    pure ["Position Value: $" ++ fmtRatDec m 2]
  else pure []

/-- Source `main.py:63-66`: the PnL line of an open trade. -/
def line_pnl (st : TradeState) : Except PyErr (List String) :=
  if st.pnlCollateral.isSome then do
    let m ← pyDivMicro st.pnlCollateral
    pure ["PnL: " ++ (if (0 : Rat) ≤ m then "+" else "") ++ "$" ++ fmtRatDec m 2]
  else pure []

/-- Source `main.py:68-70`: the PnL-percentage line of an open trade. -/
def line_pnl_pct (st : TradeState) : Except PyErr (List String) :=
  if st.pnlPct.isSome then do
    let b ← pyGeRat st.pnlPct 0
    let s ← pyFmtRat st.pnlPct 2
    pure ["PnL %: " ++ (if b then "+" else "") ++ s ++ "%"]
  else pure []

/-- Source `main.py:72-74` and `main.py:119-121`: the collateral line. -/
def line_collateral (open_collateral : Option Int) : Except PyErr (List String) :=
  if pyTruthyInt open_collateral then do
    let m ← pyDivMicro open_collateral
    pure ["Collateral: " ++ fmtRatDec m 2]
  else pure []

/-- Source `main.py:75-77`: the current-collateral line of an open trade. -/
def line_current_collateral (collateral open_collateral : Option Int) :
    Except PyErr (List String) :=
  if pyTruthyInt collateral && !(collateral == open_collateral) then do
    let m ← pyDivMicro collateral
    pure ["Current Collateral: " ++ fmtRatDec m 2]
  else pure []

theorem line_position_value_isOk (st : TradeState) :
    (line_position_value st).isOk = true := by
  unfold line_position_value
  cases h : st.positionValue with
  | none => simp [h]
  | some v => simp [h, pyDivMicro]

theorem line_pnl_isOk (st : TradeState) : (line_pnl st).isOk = true := by
  unfold line_pnl
  cases h : st.pnlCollateral with
  | none => simp [h]
  | some v => simp [h, pyDivMicro]

theorem line_pnl_pct_isOk (st : TradeState) : (line_pnl_pct st).isOk = true := by
  unfold line_pnl_pct
  cases h : st.pnlPct with
  | none => simp [h]
  | some v => simp [h, pyGeRat, pyFmtRat]

theorem line_collateral_isOk (x : Option Int) :
    (line_collateral x).isOk = true := by
  unfold line_collateral
  cases h : x with
  | none => simp [pyTruthyInt]
  | some v =>
    by_cases hv : v = 0
    · simp [pyTruthyInt, hv]
    · simp [pyTruthyInt, hv, pyDivMicro]

theorem line_current_collateral_isOk (x y : Option Int) :
    (line_current_collateral x y).isOk = true := by
  unfold line_current_collateral
  cases h : x with
  | none => simp [pyTruthyInt]
  | some v =>
    by_cases hv : v = 0
    · simp [pyTruthyInt, hv]
    · by_cases heq : (some v == y) = true
      · simp [pyTruthyInt, hv, heq]
      · simp [pyTruthyInt, hv, heq, pyDivMicro]

/-- Model of `format_trade_open` (`main.py:21-82`): fixed-layout text block for
an open trade; optional fields are read defensively with `.get`
defaults, numeric lines only appear behind presence/truthiness guards. -/
def format_trade_open (trade : Trade) : Except PyErr String := do
  let trade_id := trade.id.getD "?"
  let side := if trade.isLong.getD false then "🟢 Long" else "🔴 Short"
  let mkt := trade.perpBorrowing.getD Market.empty
  let base_token := mkt.baseToken.getD Token.empty
  let quote_token := mkt.quoteToken.getD Token.empty
  let base := pyStrOr base_token.symbol (pyStrOr base_token.name "?")
  let quote := pyStrOr quote_token.symbol (pyStrOr quote_token.name "?")
  let st := trade.state.getD TradeState.empty
  let open_block := trade.openBlock.getD Block.empty
  let open_ts := open_block.block_ts
  let base_lines := [hrLine,
    "Trade #" ++ trade_id ++ " | ✅ OPEN",
    "Market: " ++ base ++ "/" ++ quote ++ " (ID: " ++ marketIdStr mkt.marketId ++ ")",
    "Side: " ++ side ++ " | Leverage: " ++ optReprRat trade.leverage ++ "x",
    "Entry Price: " ++ optReprRat trade.openPrice]
  let l1 := if pyTruthyInt st.liquidationPrice then
    ["Liquidation Price: " ++ optReprInt st.liquidationPrice] else []
  let l2 ← line_position_value st
  let l3 ← line_pnl st
  let l4 ← line_pnl_pct st
  let l5 ← line_collateral trade.openCollateralAmount
  let l6 ← line_current_collateral trade.collateralAmount trade.openCollateralAmount
  let l7 := if pyTruthyStr open_ts then ["Opened: " ++ open_ts.getD ""] else []
  pure (String.intercalate "\n"
    (base_lines ++ l1 ++ l2 ++ l3 ++ l4 ++ l5 ++ l6 ++ l7))

/-- Model of `format_trade_closed` (`main.py:85-128`): fixed-layout text block
for a closed trade. -/
def format_trade_closed (trade : Trade) : Except PyErr String := do
  let trade_id := trade.id.getD "?"
  let side := if trade.isLong.getD false then "🟢 Long" else "🔴 Short"
  let mkt := trade.perpBorrowing.getD Market.empty
  let base_token := mkt.baseToken.getD Token.empty
  let quote_token := mkt.quoteToken.getD Token.empty
  let base := pyStrOr base_token.symbol (pyStrOr base_token.name "?")
  let quote := pyStrOr quote_token.symbol (pyStrOr quote_token.name "?")
  let open_block := trade.openBlock.getD Block.empty
  let close_block := trade.closeBlock.getD Block.empty
  let open_ts := open_block.block_ts
  let close_ts := close_block.block_ts
  let base_lines := [hrLine,
    "Trade #" ++ trade_id ++ " | ❌ CLOSED",
    "Market: " ++ base ++ "/" ++ quote ++ " (ID: " ++ marketIdStr mkt.marketId ++ ")",
    "Side: " ++ side ++ " | Leverage: " ++ optReprRat trade.leverage ++ "x",
    "Entry Price: " ++ optReprRat trade.openPrice]
  let e1 := if pyTruthyRat trade.closePrice then
    ["Exit Price: " ++ optReprRat trade.closePrice] else []
  let e2 ← line_collateral trade.openCollateralAmount
  let e3 := if pyTruthyStr open_ts then ["Opened: " ++ open_ts.getD ""] else []
  let e4 := if pyTruthyStr close_ts then ["Closed: " ++ close_ts.getD ""] else []
  pure (String.intercalate "\n" (base_lines ++ e1 ++ e2 ++ e3 ++ e4))

/-- Model of `format_price_single` (`main.py:171-187`): one-line price display;
an absent price value yields the "not available" text, otherwise the
price is rendered with 2, 4 or 8 decimals by magnitude. -/
def format_price_single (price_data : Price) : Except PyErr String := do
  let token := price_data.token.getD Token.empty
  let symbol := pyStrOr token.symbol (pyStrOr token.name "?")
  if price_data.priceUsd.isNone then
    pure ("Price not available for " ++ symbol)
  else do
    let ge1 ← pyGeRat price_data.priceUsd 1
    if ge1 then do
      let s ← pyFmtRat price_data.priceUsd 2
      pure ("💰 " ++ symbol ++ ": $" ++ s)
    else do
      let ge2 ← pyGeRat price_data.priceUsd (1 / 100)
      if ge2 then do
        let s ← pyFmtRat price_data.priceUsd 4
        pure ("💰 " ++ symbol ++ ": $" ++ s)
      else do
        let s ← pyFmtRat price_data.priceUsd 8
        pure ("💰 " ++ symbol ++ ": $" ++ s)

theorem format_trade_open_isOk (t : Trade) :
    (format_trade_open t).isOk = true := by
  unfold format_trade_open
  refine exceptBind_isOk (line_position_value_isOk _) (fun l2 => ?_)
  refine exceptBind_isOk (line_pnl_isOk _) (fun l3 => ?_)
  refine exceptBind_isOk (line_pnl_pct_isOk _) (fun l4 => ?_)
  refine exceptBind_isOk (line_collateral_isOk _) (fun l5 => ?_)
  refine exceptBind_isOk (line_current_collateral_isOk _ _) (fun l6 => ?_)
  rfl

theorem format_trade_closed_isOk (t : Trade) :
    (format_trade_closed t).isOk = true := by
  unfold format_trade_closed
  refine exceptBind_isOk (line_collateral_isOk _) (fun e2 => ?_)
  rfl

theorem format_price_single_isOk (p : Price) :
    (format_price_single p).isOk = true := by
  unfold format_price_single
  cases h : p.priceUsd with
  | none => simp [h]
  | some v =>
    simp only [h, Option.isNone_some, Bool.false_eq_true, if_false]
    refine exceptBind_isOk (by simp [pyGeRat]) (fun ge1 => ?_)
    cases ge1 with
    | true =>
      simp only [if_true]
      exact exceptBind_isOk (by simp [pyFmtRat]) (fun s => rfl)
    | false =>
      simp only [Bool.false_eq_true, if_false]
      refine exceptBind_isOk (by simp [pyGeRat]) (fun ge2 => ?_)
      cases ge2 with
      | true =>
        simp only [if_true]
        exact exceptBind_isOk (by simp [pyFmtRat]) (fun s => rfl)
      | false =>
        simp only [Bool.false_eq_true, if_false]
        exact exceptBind_isOk (by simp [pyFmtRat]) (fun s => rfl)

/-- C9: for every trade record and price record — in particular those
with any optional field (exit price, computed state block, open/close
block timestamps, token symbol/name, price value, current collateral)
absent — the record formatters return a text block without raising. -/
theorem c9_formatters_never_raise (t₁ t₂ : Trade) (p : Price) :
    (format_trade_open t₁).isOk = true
    ∧ (format_trade_closed t₂).isOk = true
    ∧ (format_price_single p).isOk = true :=
  ⟨format_trade_open_isOk t₁, format_trade_closed_isOk t₂,
    format_price_single_isOk p⟩

/-- One displayed price line of `format_prices` (`main.py:154-166`):
a line is emitted only when `priceUsd` is present. -/
def price_line (p : Price) : Option String :=
  let token := p.token.getD Token.empty
  let symbol := pyStrOr token.symbol
    (pyStrOr token.name ("Token " ++ optReprNat token.id))
  match p.priceUsd with
  | none => none
  | some price =>
    if (1 : Rat) ≤ price then some ("• " ++ symbol ++ ": $" ++ fmtRatDec price 2)
    else if (1 / 100 : Rat) ≤ price then
      some ("• " ++ symbol ++ ": $" ++ fmtRatDec price 4)
    else some ("• " ++ symbol ++ ": $" ++ fmtRatDec price 8)

/-- Model of `format_prices` (`main.py:134-168`): sort, slice the requested
window, render a header plus one line per priced record, and report
whether more pages exist.  Returns `(text, has_more)`. -/
def format_prices (prices : List Price) (start_idx : Nat) (page_size : Nat) :
    String × Bool :=
  if prices = [] then ("No prices found.", false)
  else
    let sorted := sorted_prices prices
    let w := page_window sorted (start_idx : Int) (page_size : Int)
    let end_idx := min (start_idx + page_size) sorted.length
    let header := "💰 Oracle Prices (Top " ++ toString end_idx ++ " of "
      ++ toString sorted.length ++ ")\n"
    (String.intercalate "\n" (header :: w.1.filterMap price_line), w.2)

/-- Python `s.split(":", maxsplit)` helper over characters: at most
`maxsplit` splits, the remainder stays in the last field. -/
def splitColonAux : Nat → List Char → List Char → List (List Char)
  | _, acc, [] => [acc.reverse]
  | 0, acc, rest => [acc.reverse ++ rest]
  | fuel + 1, acc, c :: cs =>
    if c = ':' then acc.reverse :: splitColonAux fuel [] cs
    else splitColonAux (fuel + 1) (c :: acc) cs

/-- Python `s.split(":", maxsplit)`. -/
def pySplitColon (s : String) (maxsplit : Nat) : List String :=
  (splitColonAux maxsplit [] s.toList).map String.mk

/-- Value of an all-digit character run (decimal). -/
def digitsVal (cs : List Char) : Option Nat :=
  if cs = [] then none
  else if cs.all Char.isDigit then
    some (cs.foldl (fun acc c => acc * 10 + (c.toNat - 48)) 0)
  else none

/-- Python `int(s)` for the decimal payloads this bot parses: optional
surrounding whitespace, an optional sign, then decimal digits; `none`
models the `ValueError` Python raises on anything else. -/
def pyInt (s : String) : Option Int :=
  let t := ((s.toList.dropWhile Char.isWhitespace).reverse.dropWhile
    Char.isWhitespace).reverse
  match t with
  | '-' :: ds => (digitsVal ds).map (fun n => -(n : Int))
  | '+' :: ds => (digitsVal ds).map (fun n => (n : Int))
  | ds => (digitsVal ds).map (fun n => (n : Int))

/-- Python `s.startswith(p)`. -/
def pyStartsWith (s p : String) : Bool := p.toList.isPrefixOf s.toList

/-- Python `s[:n]`. -/
def strTake (s : String) (n : Nat) : String := String.mk (s.toList.take n)

/-- Python `s[-n:]` (the whole string when it is shorter than `n`). -/
def strTakeEnd (s : String) (n : Nat) : String :=
  String.mk (s.toList.reverse.take n).reverse

/-- Address shortening of `send_trades_page` (`main.py:218-223`). -/
def addr_display (address : String) : String :=
  if pyStartsWith address "0x" then
    strTake address 8 ++ "..." ++ strTakeEnd address 6
  else
    strTake address 10 ++ "..." ++ strTakeEnd address 6

/-- Whether an outbound message is a fresh reply or an in-place edit. -/
inductive OutKind where
  | reply
  | edit
  deriving DecidableEq

/-- One outbound chat operation: its kind, its text, and the
callback payload of its "Next →" button when one is attached. -/
structure Out where
  kind : OutKind
  text : String
  nextData : Option String
  deriving DecidableEq

/-- A call made to the upstream data source. -/
inductive FetchCall where
  | prices (limit : Nat)
  deriving DecidableEq

/-- The per-conversation `context.user_data` mapping: the stored prices
page counter (`user_data.get("prices_page", 0)`) and the stored trade
result sets keyed by `trades_{type}_{address}` strings. -/
structure UserData where
  prices_page : Nat
  stores : List (String × List Trade)
  deriving DecidableEq

/-- The upstream data the GraphQL endpoint would return to a fetch. -/
structure Env where
  prices : List Price

/-- Effect trace of one handler invocation: the final `user_data`
state, the upstream fetches performed, the outbound chat operations,
and the Python exception that escaped the handler, if any. -/
structure HandlerResult where
  state : UserData
  fetches : List FetchCall
  outbound : List Out
  raised : Option PyErr
  deriving DecidableEq

/-- Model of `send_trades_page` (`main.py:206-249`): formats the requested page
of the given trades and produces one outbound message (an edit when
invoked from a callback), with a "Next →" button when more pages
exist. -/
def send_trades_page (address : String) (trades : List Trade)
    (trade_type : String) (page : Int) (page_size : Int) (is_edit : Bool) :
    Except PyErr Out := do
  let addr_d := addr_display address
  let formatted ← if trade_type = "open" then trades.mapM format_trade_open
    else trades.mapM format_trade_closed
  let header := if trade_type = "open" then "✅ OPEN TRADES for " ++ addr_d
    else "❌ CLOSED TRADES for " ++ addr_d
  let start := page * page_size
  let e := min (start + page_size) (formatted.length : Int)
  let w := page_window formatted start page_size
  let result := header ++ "\n(" ++ toString e ++ " of "
    ++ toString formatted.length ++ ")\n\n" ++ String.intercalate "\n\n" w.1
  let nextData := if w.2 then
    some ("trades_next:" ++ address ++ ":" ++ trade_type ++ ":" ++ toString (page + 1))
  else none
  pure ⟨if is_edit then OutKind.edit else OutKind.reply, result, nextData⟩

/-- Model of `callback_handler` (`main.py:368-409`): dispatches an inbound
callback payload.  `prices_next` advances the stored page counter and
performs a *fresh* price fetch; `trades_next:addr:type:page` is parsed
(a non-integer page raises `ValueError`, any other field count is
ignored), then served from the stored result set, with a fixed
"expired" edit when the store has no entry. -/
def callback_handler (data : String) (st : UserData) (env : Env) :
    HandlerResult :=
  if data = "prices_next" then
    let page := st.prices_page + 1
    let st' := { st with prices_page := page }
    let fp := format_prices env.prices (page * 10) 10
    { state := st', fetches := [FetchCall.prices 200],
      outbound := [⟨OutKind.edit, fp.1,
        if fp.2 then some "prices_next" else none⟩],
      raised := none }
  else if pyStartsWith data "trades_next:" then
    match pySplitColon data 3 with
    | [_, address, trade_type, page_str] =>
      match pyInt page_str with
      | none =>
        { state := st, fetches := [], outbound := [],
          raised := some PyErr.valueError }
      | some page =>
        let trades_key := "trades_" ++ trade_type ++ "_" ++ address
        let trades := (st.stores.lookup trades_key).getD []
        if trades = [] then
          { state := st, fetches := [],
            outbound := [⟨OutKind.edit,
              "Trades data expired. Please run /trades again.", none⟩],
            raised := none }
        else
          match send_trades_page address trades trade_type page 5 true with
          | .ok out =>
            { state := st, fetches := [], outbound := [out], raised := none }
          | .error e =>
            { state := st, fetches := [], outbound := [], raised := some e }
    | _ => { state := st, fetches := [], outbound := [], raised := none }
  else { state := st, fetches := [], outbound := [], raised := none }

/-- Model of `prices_cmd` (`main.py:317-339`): without a `next` argument the
page is 0 and the stored counter is untouched; with `next` the counter
is advanced and stored; either way the prices are fetched fresh and the
page is rendered as a reply. -/
def prices_cmd (args : List String) (st : UserData) (env : Env) :
    HandlerResult :=
  let pageSt :=
    match args with
    | [] => ((0 : Nat), st)
    | a :: _ =>
      if pyLower a = "next" then
        (st.prices_page + 1, { st with prices_page := st.prices_page + 1 })
      else ((0 : Nat), st)
  let fp := format_prices env.prices (pageSt.1 * 10) 10
  { state := pageSt.2, fetches := [FetchCall.prices 200],
    outbound := [⟨OutKind.reply, fp.1,
      if fp.2 then some "prices_next" else none⟩],
    raised := none }

/-- Fresh `user_data`: counter 0, no stored result sets. -/
def st0 : UserData := ⟨0, []⟩

/-- Upstream environment returning an empty price list. -/
def env0 : Env := ⟨[]⟩

/-- C2 (code bug): the claim — and `spec.md` §6/§7/§8 — require every
malformed trade-pagination payload to be a no-op with no exception.
The code only guards the field count (`if len(parts) == 4`); a payload
with four fields whose page field is not an integer reaches the bare
`int(page_str)` (`main.py:400`) and raises `ValueError`.  This theorem
evaluates the embedded dispatcher at such a failing input, and checks
that a wrong field count *is* swallowed silently as claimed. -/
theorem c2_malformed_page_raises_valueerror :
    callback_handler "trades_next:nibi1abc:open:oops" st0 env0
      = { state := st0, fetches := [], outbound := [],
          raised := some PyErr.valueError }
    ∧ callback_handler "trades_next:only:two" st0 env0
      = { state := st0, fetches := [], outbound := [], raised := none }
    ∧ (callback_handler "trades_next:a:open:-1" st0 env0).outbound
      = [⟨OutKind.edit, "Trades data expired. Please run /trades again.", none⟩] := by
  refine ⟨?_, ?_, ?_⟩ <;> decide

/-- C5 counterexample: the claim says handling a pagination action
performs no new fetch from the upstream data source; the `prices_next`
branch (`main.py:380-383`) performs a fresh `fetch_prices(limit=200)`
on every activation. -/
theorem c5_prices_next_fetches_counterexample :
    (callback_handler "prices_next" st0 env0).fetches = [FetchCall.prices 200]
    ∧ (callback_handler "prices_next" st0 env0).fetches ≠ [] := by
  refine ⟨?_, ?_⟩ <;> decide

/-- C5 (amended): a *trade*-pagination action is served entirely from
the stored result set — no upstream fetch, `user_data` (stored result
sets and page counter) unchanged — while a *prices* pagination action
performs a fresh price fetch on each activation and advances only the
stored page counter; no stored result set is ever refreshed by
pagination. -/
theorem c5_pagination_frame_amended :
    (∀ (data : String) (st : UserData) (env : Env),
      pyStartsWith data "trades_next:" = true →
      data ≠ "prices_next" →
      (callback_handler data st env).fetches = []
      ∧ (callback_handler data st env).state = st)
    ∧ (∀ (st : UserData) (env : Env),
      (callback_handler "prices_next" st env).fetches = [FetchCall.prices 200]
      ∧ (callback_handler "prices_next" st env).state
        = { st with prices_page := st.prices_page + 1 }) := by
  constructor
  · intro data st env hsw hne
    unfold callback_handler
    rw [if_neg hne, if_pos hsw]
    split
    · split
      · exact ⟨rfl, rfl⟩
      · dsimp only
        split
        · exact ⟨rfl, rfl⟩
        · split
          · exact ⟨rfl, rfl⟩
          · exact ⟨rfl, rfl⟩
    · exact ⟨rfl, rfl⟩
  · intro st env
    exact ⟨rfl, rfl⟩

/-- Closed witness for `c5_pagination_frame_amended`: a concrete
trade-pagination action fetches nothing and leaves the store intact. -/
theorem c5_pagination_frame_amended_witness :
    pyStartsWith "trades_next:a:open:2" "trades_next:" = true
    ∧ "trades_next:a:open:2" ≠ "prices_next"
    ∧ ((callback_handler "trades_next:a:open:2" st0 env0).fetches = []
      ∧ (callback_handler "trades_next:a:open:2" st0 env0).state = st0) :=
  ⟨by decide, by decide,
    c5_pagination_frame_amended.1 "trades_next:a:open:2" st0 env0
      (by decide) (by decide)⟩

/-- C8: a well-formed trade-pagination action (integer page field)
whose discriminator is absent from the session store is answered with
the fixed instruction to re-issue `/trades`, raises nothing, and
leaves the state unchanged. -/
theorem c8_expired_state_message (data : String) (st : UserData) (env : Env)
    (head address trade_type page_str : String) (page : Int)
    (hne : data ≠ "prices_next")
    (hsw : pyStartsWith data "trades_next:" = true)
    (hsp : pySplitColon data 3 = [head, address, trade_type, page_str])
    (hint : pyInt page_str = some page)
    (habs : st.stores.lookup ("trades_" ++ trade_type ++ "_" ++ address) = none) :
    (callback_handler data st env).outbound
      = [⟨OutKind.edit, "Trades data expired. Please run /trades again.", none⟩]
    ∧ (callback_handler data st env).raised = none
    ∧ (callback_handler data st env).state = st := by
  unfold callback_handler
  rw [if_neg hne, if_pos hsw]
  simp only [hsp, hint, habs, Option.getD_none]
  exact ⟨rfl, rfl, rfl⟩

/-- Closed witness for `c8_expired_state_message` at a concrete
expired-state input. -/
theorem c8_expired_state_message_witness :
    ("trades_next:abc:open:1" : String) ≠ "prices_next"
    ∧ pyStartsWith "trades_next:abc:open:1" "trades_next:" = true
    ∧ pySplitColon "trades_next:abc:open:1" 3
        = ["trades_next", "abc", "open", "1"]
    ∧ pyInt "1" = some 1
    ∧ st0.stores.lookup ("trades_" ++ "open" ++ "_" ++ "abc") = none
    ∧ ((callback_handler "trades_next:abc:open:1" st0 env0).outbound
        = [⟨OutKind.edit, "Trades data expired. Please run /trades again.", none⟩]
      ∧ (callback_handler "trades_next:abc:open:1" st0 env0).raised = none
      ∧ (callback_handler "trades_next:abc:open:1" st0 env0).state = st0) :=
  ⟨by decide, by decide, by decide, by decide, by decide,
    c8_expired_state_message "trades_next:abc:open:1" st0 env0
      "trades_next" "abc" "open" "1" 1
      (by decide) (by decide) (by decide) (by decide) (by decide)⟩

/-- C10: invoking the prices command without a `next` argument renders
page 0 and leaves all of `user_data` — in particular the stored page
counter — unchanged, while a subsequent `prices_next` pagination action
advances from the previously stored counter value (rendering start
ordinal `(counter+1)*10`), not from 0. -/
theorem c10_prices_counter_frame :
    (∀ (args : List String) (st : UserData) (env : Env),
      (∀ a, args.head? = some a → pyLower a ≠ "next") →
      (prices_cmd args st env).state = st
      ∧ (prices_cmd args st env).outbound
        = [⟨OutKind.reply, (format_prices env.prices 0 10).1,
            if (format_prices env.prices 0 10).2 then some "prices_next"
            else none⟩])
    ∧ (∀ (st : UserData) (env : Env),
      (callback_handler "prices_next" st env).state.prices_page
          = st.prices_page + 1
      ∧ (callback_handler "prices_next" st env).outbound
        = [⟨OutKind.edit,
            (format_prices env.prices ((st.prices_page + 1) * 10) 10).1,
            if (format_prices env.prices ((st.prices_page + 1) * 10) 10).2
            then some "prices_next" else none⟩]) := by
  constructor
  · intro args st env h
    cases args with
    | nil =>
      unfold prices_cmd
      norm_num
    | cons a rest =>
      have ha : ¬ (pyLower a = "next") := h a rfl
      unfold prices_cmd
      dsimp only
      rw [if_neg ha]
      norm_num
  · intro st env
    exact ⟨rfl, rfl⟩

/-- Closed witness for `c10_prices_counter_frame` at a concrete
invocation without arguments. -/
theorem c10_prices_counter_frame_witness :
    (prices_cmd [] st0 env0).state = st0
    ∧ (prices_cmd [] st0 env0).outbound
      = [⟨OutKind.reply, (format_prices env0.prices 0 10).1,
          if (format_prices env0.prices 0 10).2 then some "prices_next"
          else none⟩] :=
  c10_prices_counter_frame.1 [] st0 env0 (fun a h => by simp at h)

/-- Closed witness for `c1_paginate_page_spec` at a concrete input. -/
theorem c1_paginate_page_spec_witness :
    0 < 2
    ∧ ((page_window [10, 20, 30] (((1 : Nat) : Int) * ((2 : Nat) : Int)) ((2 : Nat) : Int)).1.length
        = min 2 ([10, 20, 30].length - 1 * 2)
    ∧ (page_window [10, 20, 30] (((1 : Nat) : Int) * ((2 : Nat) : Int)) ((2 : Nat) : Int)).1
        = ([10, 20, 30].drop (1 * 2)).take (min (1 * 2 + 2) [10, 20, 30].length - 1 * 2)
    ∧ ((page_window [10, 20, 30] (((1 : Nat) : Int) * ((2 : Nat) : Int)) ((2 : Nat) : Int)).2 = true
        ↔ min (1 * 2 + 2) [10, 20, 30].length < [10, 20, 30].length)
    ∧ ([10, 20, 30].length ≤ 1 * 2 →
        (page_window [10, 20, 30] (((1 : Nat) : Int) * ((2 : Nat) : Int)) ((2 : Nat) : Int)).1 = [])) := by
  refine ⟨by decide, ?_⟩
  have h := c1_paginate_page_spec [10, 20, 30] 1 2 (by decide)
  exact ⟨h.1, h.2.1, h.2.2.1, h.2.2.2⟩
